import Mathlib

/-!
Verification of the PipeGuard analytics layer: a shallow embedding of the
scoring, trend and anomaly-detection functions from `app.py`,
`advanced_monitoring.py` and `monitor_pipeline.py`, with theorems settling
the specified properties.  Numeric values are modelled as rationals (reals
where the source takes a square root); Python's `round(x, 1)` is modelled
as exact round-half-to-even on rationals.
-/

namespace PipeGuard

/-- A pipeline run record as consumed by the scoring functions: the fields
`status` and `duration` read via `run.get('status')` / `run.get('duration', 0)`. -/
structure Run where
  status : String
  duration : ℚ
deriving Repr, DecidableEq

namespace App

/-- Round-half-to-even on rationals, the rounding mode of Python's `round`. -/
def roundHalfEven (q : ℚ) : ℤ :=
  if q - ⌊q⌋ < 1/2 then ⌊q⌋
  else if q - ⌊q⌋ > 1/2 then ⌊q⌋ + 1
  else if Even ⌊q⌋ then ⌊q⌋ else ⌊q⌋ + 1

/-- Python's `round(q, 1)`: round `10*q` half-to-even, divide by 10. -/
def pyRound1 (q : ℚ) : ℚ := (roundHalfEven (10 * q) : ℚ) / 10

/-- Source variable `success_rate` in `calculate_health_score`:
`len([r for r in runs if r.get('status') == 'success']) / len(runs)`. -/
def success_rate (runs : List Run) : ℚ :=
  ((runs.filter (fun r => r.status = "success")).length : ℚ) / runs.length

/-- Source variable `avg_duration` in `calculate_health_score`:
`sum(r.get('duration', 0) for r in runs) / len(runs)`. -/
def avg_duration (runs : List Run) : ℚ :=
  (runs.map Run.duration).sum / runs.length

/-- Source variable `duration_score` in `calculate_health_score`: `max(0, 1 - (avg_duration - 60) / 120)`. -/
def duration_score (runs : List Run) : ℚ :=
  max 0 (1 - (avg_duration runs - 60) / 120)

/-- Source variable `frequency_score` in `calculate_health_score`: `min(1, len(runs) / 24)`. -/
def frequency_score (runs : List Run) : ℚ :=
  min 1 ((runs.length : ℚ) / 24)

/-- Function `calculate_health_score` from `app.py`: neutral 50 on no data, otherwise
`health_score = success_rate*60 + duration_score*20 + frequency_score*20`
followed by `return round(health_score * 100, 1)`. -/
def calculate_health_score (runs : List Run) : ℚ :=
  if runs = [] then 50
  else pyRound1 ((success_rate runs * 60 + duration_score runs * 20
      + frequency_score runs * 20) * 100)

end App

namespace AdvancedMonitoring

/-- Method `PipelineAnalyzer._calculate_rolling_success_rates`: for each index `i`,
the fraction of successes in `runs[max(0, i - window_size + 1) : i + 1]`
(the source's default for `window_size` is 5).  Natural subtraction
`i + 1 - window_size` equals Python's `max(0, i - window_size + 1)`. -/
def _calculate_rolling_success_rates (runs : List Run) (window_size : ℕ) : List ℚ :=
  (List.range runs.length).map (fun i =>
    let start_idx := i + 1 - window_size
    let window_runs := (runs.drop start_idx).take (i + 1 - start_idx)
    if window_runs = [] then 0
    else ((window_runs.filter (fun r => r.status = "success")).length : ℚ)
        / window_runs.length)

/-- Source variable `sum_x` in `_calculate_trend`: `sum(x)` for `x = list(range(n))`. -/
def sum_x (n : ℕ) : ℚ := ∑ i in Finset.range n, (i : ℚ)

/-- Source variable `sum_x2` in `_calculate_trend`: `sum(x[i] ** 2 for i in range(n))`. -/
def sum_x2 (n : ℕ) : ℚ := ∑ i in Finset.range n, (i : ℚ) ^ 2

/-- Source variable `sum_xy` in `_calculate_trend`: `sum(x[i] * values[i] for i in range(n))`. -/
def sum_xy (values : List ℚ) : ℚ :=
  ∑ i in Finset.range values.length, (i : ℚ) * values.getD i 0

/-- The slope denominator `n * sum_x2 - sum_x ** 2` of `_calculate_trend`. -/
def trendDenom (n : ℕ) : ℚ := n * sum_x2 n - sum_x n ^ 2

/-- Source variable `slope` in `_calculate_trend`:
`(n*sum_xy - sum_x*sum_y) / (n*sum_x2 - sum_x**2) if (n*sum_x2 - sum_x**2) != 0 else 0`,
with `sum_y = sum(values)`. -/
def slope (values : List ℚ) : ℚ :=
  if trendDenom values.length ≠ 0 then
    (values.length * sum_xy values - sum_x values.length * values.sum)
      / trendDenom values.length
  else 0

/-- Method `PipelineAnalyzer._calculate_trend`: "stable" for fewer than 2 values
(the inner `n == 0` guard is dead code after that test), otherwise
classify the least-squares slope against the thresholds `0.1` / `-0.1`. -/
def _calculate_trend (values : List ℚ) : String :=
  if values.length < 2 then "stable"
  else if values.length = 0 then "stable"
  else if slope values > 1/10 then "improving"
  else if slope values < -(1/10) then "degrading"
  else "stable"

/-- Python `statistics.mean`: arithmetic mean of a list. -/
def mean (xs : List ℚ) : ℚ := xs.sum / xs.length

/-- The sample variance underlying `statistics.stdev`:
`sum((x - mean)^2) / (n - 1)`. -/
def sampleVariance (xs : List ℚ) : ℚ :=
  (xs.map (fun x => (x - mean xs) ^ 2)).sum / ((xs.length : ℚ) - 1)

/-- Python `statistics.stdev`: square root of the sample variance; the square root
forces the real-valued model. -/
noncomputable def stdev (xs : List ℚ) : ℝ := Real.sqrt ((sampleVariance xs : ℚ) : ℝ)

/-- Source variable `recent_runs` in `_calculate_performance_score`: `runs[-10:]`. -/
def recent_runs (runs : List Run) : List Run := runs.drop (runs.length - 10)

/-- Source variable `success_score` in `_calculate_performance_score`: the success rate of
the last 10 runs times the 40% weight. -/
def success_score (runs : List Run) : ℚ :=
  (((recent_runs runs).filter (fun r => r.status = "success")).length : ℚ)
    / (recent_runs runs).length * 40

/-- Source variable `durations` in `_calculate_performance_score`:
`[run.get('duration', 0) for run in recent_runs]`. -/
def durations10 (runs : List Run) : List ℚ := (recent_runs runs).map Run.duration

/-- Source variable `avg_duration` in `_calculate_performance_score`:
`statistics.mean(durations) if durations else 0`. -/
def avg_duration10 (runs : List Run) : ℚ :=
  if durations10 runs = [] then 0 else mean (durations10 runs)

/-- Source variable `duration_score` in `_calculate_performance_score`:
`max(0, (180 - avg_duration) / 180) * 30`. -/
def duration_score10 (runs : List Run) : ℚ :=
  max 0 ((180 - avg_duration10 runs) / 180) * 30

/-- Source variable `duration_std` in `_calculate_performance_score`:
`statistics.stdev(durations) if len(durations) > 1 else 0`. -/
noncomputable def duration_std (runs : List Run) : ℝ :=
  if 1 < (durations10 runs).length then stdev (durations10 runs) else 0

/-- Source variable `consistency_score` in `_calculate_performance_score`:
`max(0, (60 - duration_std) / 60) * 30`. -/
noncomputable def consistency_score (runs : List Run) : ℝ :=
  max 0 ((60 - duration_std runs) / 60) * 30

/-- Method `PipelineAnalyzer._calculate_performance_score`: 50 on no runs, else
`int(min(100, max(0, total_score)))`; the clamped total is nonnegative, so
Python's truncating `int()` is the floor. -/
noncomputable def _calculate_performance_score (runs : List Run) : ℤ :=
  if runs = [] then 50
  else ⌊min 100 (max 0 ((success_score runs : ℝ) + (duration_score10 runs : ℝ)
      + consistency_score runs))⌋

end AdvancedMonitoring

namespace MonitorPipeline

/-- A stored run document read back from the `runs` collection; `duration`
is optional (`if "duration" in r.to_dict()`). -/
structure StoredRun where
  duration : Option ℚ
deriving Repr, DecidableEq

/-- A workflow run as handed to `detect_anomaly`: fields `run["id"]` and
`run["conclusion"]`. -/
structure WorkflowRun where
  id : ℕ
  conclusion : String
deriving Repr, DecidableEq

/-- An anomaly record `{"issue": ..., "fix": ..., "run_id": ...}`. -/
structure Anomaly where
  issue : String
  fix : String
  run_id : ℕ
deriving Repr, DecidableEq

/-- Source variable `avg_duration` in `detect_anomaly`:
`sum(durations) / len(durations) if durations else 1` where `durations`
are the durations present among the queried recent stored runs. -/
def rollingAvg (recent : List StoredRun) : ℚ :=
  let durations := recent.filterMap StoredRun.duration
  if durations = [] then 1 else durations.sum / durations.length

/-- Function `detect_anomaly` from `monitor_pipeline.py`, with `recent` standing for
the result of the Firestore query for the most recent stored runs
(ordered by timestamp descending, limit 10). -/
def detect_anomaly (run : WorkflowRun) (duration : ℚ) (recent : List StoredRun) :
    Option Anomaly :=
  if duration > 2 * rollingAvg recent then
    some { issue := "Long build time", fix := "Optimize resources", run_id := run.id }
  else if run.conclusion = "failure" then
    some { issue := "Test failure", fix := "Check test logs", run_id := run.id }
  else none

end MonitorPipeline

namespace Spec

/-- Mean of the index sequence `0..n-1`, for the textbook ordinary
least-squares slope stated by the specification. -/
def xbar (n : ℕ) : ℚ := (∑ i in Finset.range n, (i : ℚ)) / n

/-- Mean of the observed values, as used by the textbook slope formula. -/
def ybar (values : List ℚ) : ℚ :=
  (∑ i in Finset.range values.length, values.getD i 0) / values.length

/-- Stated from the specification for comparison with `_calculate_trend`:
the ordinary least-squares slope of the points `(i, values[i])`, in the
mean-centred textbook form `Σ(x-x̄)(y-ȳ) / Σ(x-x̄)²`. -/
def olsSlope (values : List ℚ) : ℚ :=
  (∑ i in Finset.range values.length,
      ((i : ℚ) - xbar values.length) * (values.getD i 0 - ybar values))
    / (∑ i in Finset.range values.length, ((i : ℚ) - xbar values.length) ^ 2)

/-- Stated from the specification: the last 10 runs. -/
def last10 (runs : List Run) : List Run := runs.drop (runs.length - 10)

/-- Stated from the specification: success rate of the last 10 runs. -/
noncomputable def successRateSpec (runs : List Run) : ℝ :=
  (((last10 runs).filter (fun r => r.status = "success")).length : ℝ)
    / (last10 runs).length

/-- Stated from the specification: the durations of the last 10 runs, as reals. -/
noncomputable def durationsSpec (runs : List Run) : List ℝ :=
  (last10 runs).map (fun r => ((r.duration : ℚ) : ℝ))

/-- Stated from the specification: the mean duration of the last 10 runs. -/
noncomputable def meanDurationSpec (runs : List Run) : ℝ :=
  (durationsSpec runs).sum / (durationsSpec runs).length

/-- Stated from the specification: the sample standard deviation of the
last-10 durations, taken as 0 when fewer than 2 runs. -/
noncomputable def stdevDurationSpec (runs : List Run) : ℝ :=
  if 2 ≤ (durationsSpec runs).length then
    Real.sqrt (((durationsSpec runs).map
        (fun x => (x - meanDurationSpec runs) ^ 2)).sum
      / ((durationsSpec runs).length - 1))
  else 0

/-- Stated from the specification for comparison with
`_calculate_performance_score`: 40% weight on the success rate of the last
10 runs, 30% on `max(0, (180 - mean_duration)/180)`, 30% on
`max(0, (60 - stdev_duration)/60)` (stdev taken as 0 for fewer than 2
runs), summed and clamped to `[0, 100]`. -/
noncomputable def performanceScoreSpec (runs : List Run) : ℝ :=
  min 100 (max 0 (successRateSpec runs * 40
    + max 0 ((180 - meanDurationSpec runs) / 180) * 30
    + max 0 ((60 - stdevDurationSpec runs) / 60) * 30))

end Spec

section Claims

open App AdvancedMonitoring MonitorPipeline Spec

/-- Claim C8: on the empty run list both scoring functions return the
neutral constant 50 instead of failing. -/
theorem empty_runs_neutral_scores :
    _calculate_performance_score [] = 50 ∧ calculate_health_score [] = 50 := by
  constructor
  · simp [_calculate_performance_score]
  · rfl

/-- Claim C1 (failing input): on the single run `{status: "success",
duration: 60}` the weighted 0–100-scale sum is `485/6 ≈ 80.8`, but
`calculate_health_score` multiplies it by a further factor 100 before
rounding and returns `8083.3`, outside the documented 0–100 range. -/
theorem health_score_scale_failing_input :
    success_rate [⟨"success", 60⟩] * 60 + duration_score [⟨"success", 60⟩] * 20
        + frequency_score [⟨"success", 60⟩] * 20 = 485/6 ∧
    calculate_health_score [⟨"success", 60⟩] = 80833/10 ∧
    100 < calculate_health_score [⟨"success", 60⟩] := by
  refine ⟨?_, ?_, ?_⟩ <;>
    norm_num [calculate_health_score, pyRound1, roundHalfEven, success_rate,
      duration_score, avg_duration, frequency_score]

/-- Claim C3: `detect_anomaly` returns an anomaly exactly when the run's
duration exceeds twice the rolling average of the queried recent stored
runs or the run concluded in failure, and the anomaly carries the run's id. -/
theorem detect_anomaly_spec (run : WorkflowRun) (duration : ℚ)
    (recent : List StoredRun) :
    ((detect_anomaly run duration recent).isSome = true ↔
      duration > 2 * rollingAvg recent ∨ run.conclusion = "failure") ∧
    ∀ a, detect_anomaly run duration recent = some a → a.run_id = run.id := by
  constructor
  · unfold detect_anomaly
    split_ifs with h1 h2
    · simp [h1]
    · simp [h2]
    · simp [h1, h2]
  · intro a ha
    unfold detect_anomaly at ha
    split_ifs at ha
    · injection ha with h
      rw [← h]
    · injection ha with h
      rw [← h]

/-- Claim C3 witness: a failing run with small duration triggers the
test-failure anomaly, which carries the run's id 7. -/
theorem detect_anomaly_spec_witness :
    (detect_anomaly ⟨7, "failure"⟩ 1 []).isSome = true ∧
    (Anomaly.mk "Test failure" "Check test logs" 7).run_id = 7 := by
  have h := detect_anomaly_spec ⟨7, "failure"⟩ 1 []
  refine ⟨h.1.mpr (Or.inr rfl), h.2 _ ?_⟩
  norm_num [detect_anomaly, rollingAvg]

/-- Closed form of the index sum `sum_x`. -/
lemma sum_x_closed (n : ℕ) : sum_x n = n * ((n : ℚ) - 1) / 2 := by
  induction n with
  | zero => simp [sum_x]
  | succ k ih =>
    rw [sum_x, Finset.sum_range_succ, ← sum_x, ih]
    push_cast
    ring

/-- Closed form of the squared-index sum `sum_x2`. -/
lemma sum_x2_closed (n : ℕ) : sum_x2 n = n * ((n : ℚ) - 1) * (2 * n - 1) / 6 := by
  induction n with
  | zero => simp [sum_x2]
  | succ k ih =>
    rw [sum_x2, Finset.sum_range_succ, ← sum_x2, ih]
    push_cast
    ring

/-- Closed form of the slope denominator: `n² (n-1) (n+1) / 12`. -/
lemma trendDenom_closed (n : ℕ) :
    trendDenom n = (n : ℚ) ^ 2 * ((n : ℚ) - 1) * ((n : ℚ) + 1) / 12 := by
  rw [trendDenom, sum_x_closed, sum_x2_closed]
  ring

/-- For at least two points the slope denominator is strictly positive. -/
lemma trendDenom_pos {n : ℕ} (hn : 2 ≤ n) : 0 < trendDenom n := by
  rw [trendDenom_closed]
  have h : (2 : ℚ) ≤ (n : ℚ) := by exact_mod_cast hn
  have h1 : (0 : ℚ) < (n : ℚ) := by linarith
  have h2 : (0 : ℚ) < (n : ℚ) - 1 := by linarith
  have h3 : (0 : ℚ) < (n : ℚ) + 1 := by linarith
  have := mul_pos (mul_pos (pow_pos h1 2) h2) h3
  positivity

/-- Claim C10: for a value list of length at least 2 the denominator
`n*sum_x2 - sum_x²` is strictly positive, so the zero-denominator fallback
of `_calculate_trend` is unreachable and the slope is the actual quotient. -/
theorem trend_denominator_positive (values : List ℚ) (h : 2 ≤ values.length) :
    0 < trendDenom values.length ∧
    slope values = (values.length * sum_xy values
        - sum_x values.length * values.sum) / trendDenom values.length := by
  have hp := trendDenom_pos h
  refine ⟨hp, ?_⟩
  unfold AdvancedMonitoring.slope
  rw [if_pos hp.ne']

/-- Sum of `getD` over the index range is the list sum. -/
lemma sum_getD_eq (v : List ℚ) :
    ∑ i in Finset.range v.length, v.getD i 0 = v.sum := by
  induction v with
  | nil => simp
  | cons x xs ih =>
    rw [List.length_cons, Finset.sum_range_succ']
    simp only [List.getD_cons_succ, List.getD_cons_zero, List.sum_cons]
    rw [ih]
    ring

/-- Expansion of the mean-centred slope numerator into the raw sums. -/
lemma ols_num_expand (v : List ℚ) (h : 2 ≤ v.length) :
    (∑ i in Finset.range v.length,
        ((i : ℚ) - xbar v.length) * (v.getD i 0 - ybar v))
      = sum_xy v - sum_x v.length * v.sum / v.length := by
  have hn : (0 : ℚ) < (v.length : ℚ) := by
    have : 0 < v.length := by omega
    exact_mod_cast this
  have expand : ∀ i ∈ Finset.range v.length,
      ((i : ℚ) - xbar v.length) * (v.getD i 0 - ybar v)
        = (i : ℚ) * v.getD i 0 - ybar v * (i : ℚ)
            - xbar v.length * v.getD i 0 + xbar v.length * ybar v := by
    intro i _
    ring
  rw [Finset.sum_congr rfl expand]
  rw [Finset.sum_add_distrib, Finset.sum_sub_distrib, Finset.sum_sub_distrib,
    ← Finset.mul_sum, ← Finset.mul_sum, Finset.sum_const, Finset.card_range,
    nsmul_eq_mul]
  rw [show (∑ i in Finset.range v.length, (i : ℚ) * v.getD i 0) = sum_xy v from rfl]
  rw [sum_getD_eq]
  unfold Spec.xbar Spec.ybar
  rw [sum_getD_eq]
  rw [show (∑ i in Finset.range v.length, (i : ℚ)) = sum_x v.length from rfl]
  field_simp
  ring

/-- Expansion of the mean-centred slope denominator into the raw sums. -/
lemma ols_den_expand (v : List ℚ) (h : 2 ≤ v.length) :
    (∑ i in Finset.range v.length, ((i : ℚ) - xbar v.length) ^ 2)
      = sum_x2 v.length - sum_x v.length ^ 2 / v.length := by
  have hn : (0 : ℚ) < (v.length : ℚ) := by
    have : 0 < v.length := by omega
    exact_mod_cast this
  have expand : ∀ i ∈ Finset.range v.length,
      ((i : ℚ) - xbar v.length) ^ 2
        = (i : ℚ) ^ 2 - 2 * xbar v.length * (i : ℚ) + xbar v.length ^ 2 := by
    intro i _
    ring
  rw [Finset.sum_congr rfl expand]
  rw [Finset.sum_add_distrib, Finset.sum_sub_distrib, ← Finset.mul_sum,
    Finset.sum_const, Finset.card_range, nsmul_eq_mul]
  rw [show (∑ i in Finset.range v.length, (i : ℚ) ^ 2) = sum_x2 v.length from rfl]
  unfold Spec.xbar
  rw [show (∑ i in Finset.range v.length, (i : ℚ)) = sum_x v.length from rfl]
  field_simp
  ring

/-- For at least two points the textbook least-squares slope coincides with
the slope computed by `_calculate_trend`. -/
lemma olsSlope_eq_slope (v : List ℚ) (h : 2 ≤ v.length) :
    olsSlope v = AdvancedMonitoring.slope v := by
  have hn : (0 : ℚ) < (v.length : ℚ) := by
    have : 0 < v.length := by omega
    exact_mod_cast this
  have hd := trendDenom_pos h
  have hd' : (0 : ℚ) < (v.length : ℚ) * sum_x2 v.length - sum_x v.length ^ 2 := by
    have h0 := hd
    rw [trendDenom] at h0
    exact h0
  unfold Spec.olsSlope
  rw [ols_num_expand v h, ols_den_expand v h]
  unfold AdvancedMonitoring.slope
  rw [if_pos hd.ne']
  rw [trendDenom]
  have hden2 : sum_x2 v.length - sum_x v.length ^ 2 / v.length ≠ 0 := by
    have heq : sum_x2 v.length - sum_x v.length ^ 2 / v.length
        = ((v.length : ℚ) * sum_x2 v.length - sum_x v.length ^ 2) / v.length := by
      field_simp
      ring
    rw [heq]
    exact div_ne_zero hd'.ne' hn.ne'
  rw [div_eq_div_iff hden2 hd'.ne']
  field_simp
  ring

/-- Claim C4: for at least 2 values `_calculate_trend` classifies the
ordinary least-squares slope with thresholds `0.1` and `-0.1`, and for
fewer than 2 values it returns "stable". -/
theorem trend_classification_ols (values : List ℚ) :
    (2 ≤ values.length →
      _calculate_trend values =
        if olsSlope values > 1/10 then "improving"
        else if olsSlope values < -(1/10) then "degrading" else "stable") ∧
    (values.length < 2 → _calculate_trend values = "stable") := by
  constructor
  · intro h
    rw [olsSlope_eq_slope values h]
    unfold _calculate_trend
    rw [if_neg (by omega : ¬ values.length < 2), if_neg (by omega : ¬ values.length = 0)]
  · intro h
    unfold _calculate_trend
    rw [if_pos h]

/-- Claim C4 witness at the two-element list `[0, 3]`. -/
theorem trend_classification_ols_witness :
    _calculate_trend ([0, 3] : List ℚ) =
      if olsSlope ([0, 3] : List ℚ) > 1/10 then "improving"
      else if olsSlope ([0, 3] : List ℚ) < -(1/10) then "degrading" else "stable" :=
  (trend_classification_ols [0, 3]).1 (by norm_num)

/-- Element-wise negation commutes with `getD` inside the index range. -/
lemma getD_map_neg (v : List ℚ) (i : ℕ) (h : i < v.length) :
    (v.map (fun x => -x)).getD i 0 = -(v.getD i 0) := by
  induction v generalizing i with
  | nil => simp at h
  | cons x xs ih =>
    cases i with
    | zero => simp
    | succ j =>
      simp only [List.map_cons, List.getD_cons_succ]
      exact ih j (by simpa using h)

/-- Negating every element negates the list sum. -/
lemma sum_map_negL (v : List ℚ) : (v.map (fun x => -x)).sum = -v.sum := by
  induction v with
  | nil => simp
  | cons x xs ih =>
    simp [ih]
    ring

/-- Negating every value negates the weighted sum `sum_xy`. -/
lemma sum_xy_map_neg (v : List ℚ) : sum_xy (v.map (fun x => -x)) = -sum_xy v := by
  unfold sum_xy
  rw [List.length_map, ← Finset.sum_neg_distrib]
  refine Finset.sum_congr rfl ?_
  intro i hi
  rw [getD_map_neg v i (Finset.mem_range.mp hi)]
  ring

/-- Negating every value negates the computed slope. -/
lemma slope_map_neg (v : List ℚ) :
    AdvancedMonitoring.slope (v.map (fun x => -x)) = -AdvancedMonitoring.slope v := by
  unfold AdvancedMonitoring.slope
  rw [List.length_map, sum_xy_map_neg, sum_map_negL]
  split_ifs with h
  · rw [← neg_div]
    congr 1
    ring
  · simp

/-- Claim C7: trend classification is symmetric under pointwise negation:
"improving" and "degrading" swap, "stable" is preserved. -/
theorem trend_negation_symmetric (values : List ℚ) :
    (_calculate_trend values = "improving" ↔
      _calculate_trend (values.map (fun x => -x)) = "degrading") ∧
    (_calculate_trend values = "degrading" ↔
      _calculate_trend (values.map (fun x => -x)) = "improving") ∧
    (_calculate_trend values = "stable" ↔
      _calculate_trend (values.map (fun x => -x)) = "stable") := by
  unfold _calculate_trend
  rw [List.length_map, slope_map_neg]
  by_cases h2 : values.length < 2
  · rw [if_pos h2, if_pos h2]
    decide
  · have h0 : ¬ values.length = 0 := by omega
    rw [if_neg h2, if_neg h2, if_neg h0, if_neg h0]
    by_cases himp : AdvancedMonitoring.slope values > 1/10
    · have hd : -AdvancedMonitoring.slope values < -(1/10) := by linarith
      have hni : ¬ -AdvancedMonitoring.slope values > 1/10 := by linarith
      rw [if_pos himp, if_neg hni, if_pos hd]
      decide
    · by_cases hdeg : AdvancedMonitoring.slope values < -(1/10)
      · have hi : -AdvancedMonitoring.slope values > 1/10 := by linarith
        rw [if_neg himp, if_pos hdeg, if_pos hi]
        decide
      · have hni : ¬ -AdvancedMonitoring.slope values > 1/10 := by linarith
        have hnd : ¬ -AdvancedMonitoring.slope values < -(1/10) := by linarith
        rw [if_neg himp, if_neg hdeg, if_neg hni, if_neg hnd]
        decide

/-- Claim C10 witness at the two-element list `[0, 0]`. -/
theorem trend_denominator_positive_witness :
    0 < trendDenom ([0, 0] : List ℚ).length ∧
    slope ([0, 0] : List ℚ) = (([0, 0] : List ℚ).length * sum_xy [0, 0]
        - sum_x ([0, 0] : List ℚ).length * ([0, 0] : List ℚ).sum)
          / trendDenom ([0, 0] : List ℚ).length :=
  trend_denominator_positive [0, 0] (by norm_num)

/-- Claim C9: each entry of the rolling success-rate list is the success
fraction of the trailing window `runs[max(0, i-W+1)..i]`, and the list has
one entry per run. -/
theorem rolling_success_rates_spec (runs : List Run) (W i : ℕ)
    (hW : 1 ≤ W) (hi : i < runs.length) :
    (_calculate_rolling_success_rates runs W).length = runs.length ∧
    (_calculate_rolling_success_rates runs W).getD i 0 =
      ((((runs.take (i+1)).drop (i+1-W)).filter
          (fun r => r.status = "success")).length : ℚ)
        / ((runs.take (i+1)).drop (i+1-W)).length := by
  have hlen : (_calculate_rolling_success_rates runs W).length = runs.length := by
    simp [_calculate_rolling_success_rates]
  refine ⟨hlen, ?_⟩
  unfold _calculate_rolling_success_rates
  rw [List.getD_eq_getElem _ _ (by simpa using hi)]
  simp only [List.getElem_map, List.getElem_range]
  have hwin : (runs.drop (i + 1 - W)).take (i + 1 - (i + 1 - W))
      = (runs.take (i + 1)).drop (i + 1 - W) := by
    have harith : (i + 1 - W) + (i + 1 - (i + 1 - W)) = i + 1 := by omega
    rw [List.take_drop, harith]
  rw [hwin]
  have hpos : 0 < ((runs.take (i + 1)).drop (i + 1 - W)).length := by
    rw [List.length_drop, List.length_take]
    omega
  rw [if_neg (List.ne_nil_of_length_pos hpos)]

/-- Claim C9 witness: a two-run list with the default window size 5 at
position 1. -/
theorem rolling_success_rates_spec_witness :
    (_calculate_rolling_success_rates [⟨"success", 0⟩, ⟨"failure", 0⟩] 5).length
        = ([⟨"success", 0⟩, ⟨"failure", 0⟩] : List Run).length ∧
    (_calculate_rolling_success_rates [⟨"success", 0⟩, ⟨"failure", 0⟩] 5).getD 1 0 =
      ((((([⟨"success", 0⟩, ⟨"failure", 0⟩] : List Run).take (1+1)).drop (1+1-5)).filter
          (fun r => r.status = "success")).length : ℚ)
        / (((([⟨"success", 0⟩, ⟨"failure", 0⟩] : List Run).take (1+1)).drop (1+1-5)).length) :=
  rolling_success_rates_spec [⟨"success", 0⟩, ⟨"failure", 0⟩] 5 1
    (by norm_num) (by norm_num)

/-- Casting a rational list sum to the reals sums the cast list. -/
lemma ratCast_list_sum (l : List ℚ) :
    ((l.sum : ℚ) : ℝ) = (l.map (fun q => ((q : ℚ) : ℝ))).sum := by
  induction l with
  | nil => simp
  | cons x xs ih => simp [ih]

/-- The specification's "last 10 runs" is the source's `recent_runs`. -/
lemma last10_eq (runs : List Run) : last10 runs = recent_runs runs := rfl

/-- The last-10 slice of a non-empty run list is non-empty. -/
lemma recent_runs_ne_nil (runs : List Run) (h : runs ≠ []) :
    recent_runs runs ≠ [] := by
  have h1 : 0 < runs.length := List.length_pos.mpr h
  have h2 : 0 < (recent_runs runs).length := by
    unfold recent_runs
    rw [List.length_drop]
    omega
  exact List.ne_nil_of_length_pos h2

/-- The last-10 duration list of a non-empty run list is non-empty. -/
lemma durations10_ne_nil (runs : List Run) (h : runs ≠ []) :
    durations10 runs ≠ [] := by
  unfold durations10
  simp only [ne_eq, List.map_eq_nil_iff]
  exact recent_runs_ne_nil runs h

/-- The specification's real duration list is the cast of the source's. -/
lemma durationsSpec_eq (runs : List Run) :
    durationsSpec runs = (durations10 runs).map (fun q => ((q : ℚ) : ℝ)) := by
  unfold durationsSpec durations10
  rw [last10_eq, List.map_map]
  rfl

/-- The source's success component is the spec's success rate times 40. -/
lemma successRateSpec_cast (runs : List Run) :
    (success_score runs : ℝ) = successRateSpec runs * 40 := by
  unfold success_score successRateSpec
  rw [last10_eq]
  push_cast
  ring

/-- The source's rational mean duration casts to the spec's real mean. -/
lemma mean10_cast (runs : List Run) :
    ((mean (durations10 runs) : ℚ) : ℝ) = meanDurationSpec runs := by
  unfold mean meanDurationSpec
  rw [durationsSpec_eq, List.length_map, Rat.cast_div, ratCast_list_sum]
  push_cast
  ring

/-- The guarded source mean equals the spec mean on non-empty input. -/
lemma meanDurationSpec_cast (runs : List Run) (h : runs ≠ []) :
    ((avg_duration10 runs : ℚ) : ℝ) = meanDurationSpec runs := by
  unfold avg_duration10
  rw [if_neg (durations10_ne_nil runs h)]
  exact mean10_cast runs

/-- The source's guarded standard deviation equals the spec's. -/
lemma duration_std_eq_spec (runs : List Run) :
    duration_std runs = stdevDurationSpec runs := by
  unfold duration_std stdevDurationSpec
  rw [durationsSpec_eq, List.length_map]
  by_cases h : 1 < (durations10 runs).length
  · rw [if_pos h, if_pos (by omega : 2 ≤ (durations10 runs).length)]
    unfold stdev sampleVariance
    congr 1
    rw [Rat.cast_div, ratCast_list_sum, List.map_map, List.map_map]
    have hm := mean10_cast runs
    have hfun : ((fun q : ℚ => ((q : ℚ) : ℝ)) ∘ fun x : ℚ => (x - mean (durations10 runs)) ^ 2)
        = ((fun x : ℝ => (x - meanDurationSpec runs) ^ 2) ∘ fun q : ℚ => ((q : ℚ) : ℝ)) := by
      funext q
      simp only [Function.comp]
      rw [← hm]
      push_cast
      ring
    rw [hfun]
    push_cast
    ring
  · rw [if_neg h, if_neg (by omega : ¬ 2 ≤ (durations10 runs).length)]

/-- The specification score is the clamp of the source's total score. -/
lemma performanceScoreSpec_eq_clamped (runs : List Run) (h : runs ≠ []) :
    performanceScoreSpec runs
      = min 100 (max 0 ((success_score runs : ℝ) + (duration_score10 runs : ℝ)
          + consistency_score runs)) := by
  unfold performanceScoreSpec consistency_score
  rw [successRateSpec_cast, ← duration_std_eq_spec]
  have hd : (duration_score10 runs : ℝ)
      = max 0 ((180 - meanDurationSpec runs) / 180) * 30 := by
    unfold duration_score10
    rw [← meanDurationSpec_cast runs h]
    push_cast [Rat.cast_max]
    ring_nf
  rw [hd]

/-- Claim C2 (amended): on non-empty input the performance score is the
specification's clamped weighted sum, truncated to an integer (floor). -/
theorem performance_score_truncation (runs : List Run) (h : runs ≠ []) :
    _calculate_performance_score runs = ⌊performanceScoreSpec runs⌋ := by
  unfold _calculate_performance_score
  rw [if_neg h, performanceScoreSpec_eq_clamped runs h]

/-- Claim C2 witness: a single successful instant run. -/
theorem performance_score_truncation_witness :
    _calculate_performance_score [⟨"success", 0⟩]
      = ⌊performanceScoreSpec [⟨"success", 0⟩]⌋ :=
  performance_score_truncation [⟨"success", 0⟩] (by simp)

/-- Claim C2 counterexample: with 2 successes and 1 failure of duration 0
the clamped weighted sum is `260/3 ≈ 86.67`, but the code returns the
truncated integer 86, so the score does not equal the clamped sum. -/
theorem performance_score_truncation_counterexample :
    _calculate_performance_score
        [⟨"success", 0⟩, ⟨"success", 0⟩, ⟨"failure", 0⟩] = 86 ∧
    performanceScoreSpec
        [⟨"success", 0⟩, ⟨"success", 0⟩, ⟨"failure", 0⟩] = 260/3 ∧
    ((_calculate_performance_score
        [⟨"success", 0⟩, ⟨"success", 0⟩, ⟨"failure", 0⟩] : ℝ)
      ≠ performanceScoreSpec
          [⟨"success", 0⟩, ⟨"success", 0⟩, ⟨"failure", 0⟩]) := by
  have hs : success_score [⟨"success", 0⟩, ⟨"success", 0⟩, ⟨"failure", 0⟩] = 80/3 := by
    simp +decide only [success_score, recent_runs, List.length_cons, List.drop,
      List.filter_cons, List.filter_nil]
    norm_num
  have hd : duration_score10 [⟨"success", 0⟩, ⟨"success", 0⟩, ⟨"failure", 0⟩] = 30 := by
    norm_num [duration_score10, avg_duration10, durations10, recent_runs, mean]
  have hstd : duration_std [⟨"success", 0⟩, ⟨"success", 0⟩, ⟨"failure", 0⟩] = 0 := by
    norm_num [duration_std, durations10, recent_runs, stdev, sampleVariance, mean]
  have hc : consistency_score [⟨"success", 0⟩, ⟨"success", 0⟩, ⟨"failure", 0⟩] = 30 := by
    unfold consistency_score
    rw [hstd]
    norm_num
  have hcode : _calculate_performance_score
      [⟨"success", 0⟩, ⟨"success", 0⟩, ⟨"failure", 0⟩] = 86 := by
    unfold _calculate_performance_score
    rw [if_neg (by simp), hs, hd, hc]
    rw [show ((((80:ℚ)/3 : ℚ) : ℝ) + ((30:ℚ) : ℝ) + 30 : ℝ)
        = (260/3 : ℝ) from by push_cast; ring]
    rw [show max (0:ℝ) (260/3) = 260/3 from by norm_num]
    rw [show min (100:ℝ) (260/3) = 260/3 from by norm_num]
    rw [Int.floor_eq_iff]
    constructor
    · norm_num
    · norm_num
  have hspec : performanceScoreSpec
      [⟨"success", 0⟩, ⟨"success", 0⟩, ⟨"failure", 0⟩] = 260/3 := by
    rw [performanceScoreSpec_eq_clamped _ (by simp), hs, hd, hc]
    push_cast
    norm_num
  refine ⟨hcode, hspec, ?_⟩
  rw [hcode, hspec]
  norm_num

/-- Claim C5: a non-empty all-success run list scores at least 40. -/
theorem all_success_performance_ge_40 (runs : List Run) (h : runs ≠ [])
    (hall : ∀ r ∈ runs, r.status = "success") :
    40 ≤ _calculate_performance_score runs := by
  have h2 : 0 < (recent_runs runs).length :=
    List.length_pos.mpr (recent_runs_ne_nil runs h)
  have hfil : (recent_runs runs).filter (fun r => r.status = "success")
      = recent_runs runs := by
    apply List.filter_eq_self.mpr
    intro r hr
    have hmem : r ∈ runs := List.drop_subset _ _ hr
    simp [hall r hmem]
  have hss : success_score runs = 40 := by
    unfold success_score
    rw [hfil]
    have hne : ((recent_runs runs).length : ℚ) ≠ 0 := by
      exact_mod_cast h2.ne'
    field_simp
  have hds : (0:ℚ) ≤ duration_score10 runs := by
    unfold duration_score10
    exact mul_nonneg (le_max_left 0 _) (by norm_num)
  have hcs : (0:ℝ) ≤ consistency_score runs := by
    unfold consistency_score
    exact mul_nonneg (le_max_left 0 _) (by norm_num)
  unfold _calculate_performance_score
  rw [if_neg h]
  have htot : (40:ℝ) ≤ (success_score runs : ℝ) + (duration_score10 runs : ℝ)
      + consistency_score runs := by
    rw [hss]
    have hd' : (0:ℝ) ≤ (duration_score10 runs : ℝ) := by exact_mod_cast hds
    push_cast
    linarith
  have hmax : (40:ℝ) ≤ max 0 ((success_score runs : ℝ) + (duration_score10 runs : ℝ)
      + consistency_score runs) := le_trans htot (le_max_right 0 _)
  have hmin : (40:ℝ) ≤ min 100 (max 0 ((success_score runs : ℝ)
      + (duration_score10 runs : ℝ) + consistency_score runs)) :=
    le_min (by norm_num) hmax
  exact Int.le_floor.mpr (by exact_mod_cast hmin)

/-- Claim C5 witness: one successful run of duration 0. -/
theorem all_success_performance_ge_40_witness :
    40 ≤ _calculate_performance_score [⟨"success", 0⟩] :=
  all_success_performance_ge_40 [⟨"success", 0⟩] (by simp) (by simp)

/-- Claim C6: the duration component of the performance score is
non-increasing in the mean duration of the last 10 runs. -/
theorem duration_component_antitone (runs1 runs2 : List Run)
    (h1 : runs1 ≠ []) (h2 : runs2 ≠ [])
    (hm : avg_duration10 runs1 ≤ avg_duration10 runs2) :
    duration_score10 runs2 ≤ duration_score10 runs1 := by
  unfold duration_score10
  apply mul_le_mul_of_nonneg_right _ (by norm_num)
  apply max_le_max le_rfl
  exact (div_le_div_iff_of_pos_right (by norm_num : (0:ℚ) < 180)).mpr (by linarith)

/-- Claim C6 witness: mean duration 60 versus 120. -/
theorem duration_component_antitone_witness :
    duration_score10 [⟨"ok", 120⟩] ≤ duration_score10 [⟨"ok", 60⟩] :=
  duration_component_antitone [⟨"ok", 60⟩] [⟨"ok", 120⟩] (by simp) (by simp)
    (by norm_num [avg_duration10, durations10, recent_runs, mean])

end Claims

end PipeGuard
